/-
Verification of the betterbikehire recommendation core.

This file gives a shallow embedding, over ℝ, of the point-resolution,
candidate-selection and scoring/ranking pipeline of the repository
(backend/app/adapters/tfl.py, backend/app/services/scoring.py,
backend/app/routes/recommend.py, backend/app/config.py), and proves or
refutes the behavioural claims about it.

Modelling conventions:
* Python floats are modelled as real numbers; Python ints as ℤ (ℕ for the
  result limit, which FastAPI validates to 1..10).
* `dict` station records are modelled as a structure with the exact fields
  produced by `normalize_station`.
* Python's `list.sort(key=..., reverse=...)` is a stable sort; it is
  modelled by the stable insertion sort `stableSort` below (Timsort and
  stable insertion sort have the same input/output behaviour).
* Python's `round(x, n)` is modelled by `roundTo`, scaling by `10^n` and
  rounding to the nearest integer.  (Python breaks exact ties to even;
  no claim below depends on a tie value.)
* `async` functions are pure apart from fetching the catalog snapshot, so
  they are modelled as pure functions taking the snapshot as an argument;
  `HTTPException` is modelled by an explicit error value.
-/
import Mathlib

/-! ### A stable sort, modelling Python `list.sort`

`stableSort lt l` sorts `l` by the strict order `lt`, keeping the original
relative order of elements that are not strictly ordered either way.  This is
the input/output contract of Python's `list.sort` (with `lt` built from the
sort key; `reverse=True` corresponds to flipping the key comparison). -/

/-- Insert `x` into `l`: walk past elements strictly below `x`, and place `x`
in front of the first element not strictly below it.  Since elements are
inserted back-to-front by `stableSort`, an element tied with `x` but earlier
in the input ends up in front of it. -/
def stInsert (lt : α → α → Prop) [DecidableRel lt] (x : α) : List α → List α
  | [] => [x]
  | y :: ys => if lt y x then y :: stInsert lt x ys else x :: y :: ys

/-- Stable insertion sort by a strict order `lt`. -/
def stableSort (lt : α → α → Prop) [DecidableRel lt] : List α → List α
  | [] => []
  | x :: xs => stInsert lt x (stableSort lt xs)

/-! ### Substring matching, modelling Python `needle in haystack` -/

/-- Whether `n` is a prefix of `h` (on lists of characters). -/
def startsWithL [DecidableEq α] : List α → List α → Bool
  | [], _ => true
  | _ :: _, [] => false
  | a :: as, b :: bs => decide (a = b) && startsWithL as bs

/-- Whether `needle` occurs contiguously inside the second list: Python's
`needle in haystack` for strings, on the underlying character lists. -/
def containsSub [DecidableEq α] (needle : List α) : List α → Bool
  | [] => needle.isEmpty
  | b :: bs => startsWithL needle (b :: bs) || containsSub needle bs

/-! ### Data model -/

/-- A normalized station record, as produced by `normalize_station` in
backend/app/adapters/tfl.py (`id`, `name` = commonName, `lat`, `lon`,
`capacity` = NbDocks, `bikes_available` = NbBikes, `docks_available` =
NbEmptyDocks). -/
structure StationRecord where
  id : String
  name : Option String
  lat : ℝ
  lon : ℝ
  capacity : ℤ
  bikes_available : ℤ
  docks_available : ℤ

/-- One entry of the `results` list built by `recommend` in
backend/app/routes/recommend.py (lines 138-150). -/
structure Candidate where
  station_id : String
  name : Option String
  lat : ℝ
  lon : ℝ
  bikes_available : ℤ
  docks_available : ℤ
  capacity : ℤ
  distance_m : ℝ
  score : ℝ

/-- The tunable configuration from backend/app/config.py. -/
structure Settings where
  ORIGIN_SEARCH_RADIUS_M : ℤ
  DEST_STATION_RADIUS_M : ℤ

/-- The default configuration values (config.py lines 14-15). -/
def defaultSettings : Settings :=
  { ORIGIN_SEARCH_RADIUS_M := 800, DEST_STATION_RADIUS_M := 450 }

/-- A `fastapi.HTTPException`: status code and detail message. -/
structure HttpError where
  status : ℕ
  detail : String
deriving DecidableEq

/-- The response dict of `recommend` (recommend.py lines 155-160).  The
`origin` sub-dict is flattened into the `origin_*` fields; `origin_name` is
`none` when the `name` key is omitted. -/
structure RecommendResponse where
  provider : String
  origin_lat : ℝ
  origin_lon : ℝ
  origin_name : Option String
  count : ℕ
  results : List Candidate

/-- Python truthiness of an `Optional[str]`: `None` and `""` are falsy. -/
def truthy : Option String → Bool
  | none => false
  | some s => !s.isEmpty

/-! ### tfl.py adapter: catalog lookups -/

/-- `get_station_by_id` (tfl.py lines 83-89): first record whose `id` equals
`station_id`, on the normalized snapshot. -/
def get_station_by_id (stations : List StationRecord) (station_id : String) :
    Option StationRecord :=
  stations.find? (fun s => s.id == station_id)

/-- Python `len(s.get("name") or "")`: length of the station name, 0 for a
missing name. -/
def nameLen (s : StationRecord) : ℕ := (s.name.getD "").length

/-- The whitespace characters removed by Python `str.strip()` (restricted to
ASCII whitespace; the station names and queries in play are ASCII). -/
def isPySpace (c : Char) : Bool :=
  c = ' ' || c = '\t' || c = '\n' || c = '\r' || c = '\x0b' || c = '\x0c'

/-- Python `str.strip()` on the character list of a string. -/
def pyStrip (l : List Char) : List Char :=
  ((l.dropWhile isPySpace).reverse.dropWhile isPySpace).reverse

/-- Python `str.lower()` on the character list of a string (ASCII case map,
which covers the BikePoint names and queries). -/
def pyLower (l : List Char) : List Char := l.map Char.toLower

/-- The hit predicate of `find_stations_by_name` (tfl.py lines 98-99): the
(already stripped and lowered) query `ql` is nonempty and occurs in the
lowercased station name (`""` for a missing name). -/
def nameMatches (ql : List Char) (s : StationRecord) : Bool :=
  !ql.isEmpty && containsSub ql (pyLower (s.name.getD "").data)

/-- `find_stations_by_name` (tfl.py lines 92-103): filter the full catalog by
case-insensitive substring match of the stripped query, stable-sort the hits
by name length ascending, and keep the first `limit`. -/
def find_stations_by_name (stations : List StationRecord) (query : String)
    (limit : ℕ) : List StationRecord :=
  let ql := pyLower (pyStrip query.data)
  let hits := stations.filter (fun s => nameMatches ql s)
  (stableSort (fun a b => nameLen a < nameLen b) hits).take limit

/-- `get_station_by_name` (tfl.py lines 106-109): best single match by name
(first of `find_stations_by_name` with limit 1). -/
def get_station_by_name (stations : List StationRecord) (query : String) :
    Option StationRecord :=
  (find_stations_by_name stations query 1).head?

/-! ### recommend.py: point resolution -/

/-- `_resolve_point` (recommend.py lines 23-58).  Precedence: a truthy
`station_id` first, then a `lat`/`lon` pair (both present), then a truthy
name query; otherwise a 400 error.  ID and name lookups that match nothing
give a 404 error naming the `role`. -/
def resolvePoint (stations : List StationRecord) (lat lon : Option ℝ)
    (station_id station_name_q : Option String) (role : String) :
    Except HttpError (ℝ × ℝ × Option String) :=
  if truthy station_id then
    match get_station_by_id stations (station_id.getD "") with
    | none => .error ⟨404, role ++ ": BikePoint ID not found"⟩
    | some st => .ok (st.lat, st.lon, st.name)
  else
    match lat, lon with
    | some la, some lo => .ok (la, lo, none)
    | _, _ =>
      if truthy station_name_q then
        match get_station_by_name stations (station_name_q.getD "") with
        | none => .error ⟨404, role ++ ": no station matched name query"⟩
        | some st => .ok (st.lat, st.lon, st.name)
      else
        .error ⟨400, role ++ ": provide either station_id OR name query OR lat & lon"⟩

/-! ### scoring.py: distance, proximity, availability, dock score -/

/-- Earth mean radius in meters (scoring.py line 8). -/
noncomputable def EARTH_R : ℝ := 6371000.0

/-- Degrees to radians, Python `math.radians`. -/
noncomputable def degToRad (d : ℝ) : ℝ := d * (Real.pi / 180)

/-- `haversine_m` (scoring.py lines 11-16): great-circle distance in meters. -/
noncomputable def haversine_m (lat1 lon1 lat2 lon2 : ℝ) : ℝ :=
  let rlat1 := degToRad lat1
  let rlat2 := degToRad lat2
  let dlat := rlat2 - rlat1
  let dlon := degToRad lon2 - degToRad lon1
  let a := Real.sin (dlat / 2) ^ 2 +
    Real.cos rlat1 * Real.cos rlat2 * Real.sin (dlon / 2) ^ 2
  2 * EARTH_R * Real.arcsin (Real.sqrt a)

/-- `sigmoid_minutes` (scoring.py lines 19-20): logistic transform of walking
minutes, centered at 6 minutes. -/
noncomputable def sigmoid_minutes (m : ℝ) : ℝ :=
  1.0 / (1.0 + Real.exp ((m - 6) / 1.5))

/-- `availability_ratio` (scoring.py lines 23-26): share of capacity occupied
by available bikes, clamped to [0, 1]; 0 when `capacity ≤ 0`. -/
noncomputable def availability_frac (bikes capacity : ℤ) : ℝ :=
  if capacity ≤ 0 then 0.0
  else max 0.0 (min 1.0 ((bikes : ℝ) / (capacity : ℝ)))

/-- `dock_ratio` (scoring.py lines 29-32): share of capacity available as
empty docks, clamped to [0, 1]; 0 when `capacity ≤ 0`. -/
noncomputable def dock_frac (docks capacity : ℤ) : ℝ :=
  if capacity ≤ 0 then 0.0
  else max 0.0 (min 1.0 ((docks : ℝ) / (capacity : ℝ)))

/-- The body of `best_dock_score_near_dest` after the radius default is
resolved (scoring.py lines 39-44): the maximum dock ratio over all stations
within `r` meters of the destination, or 0.0 if none is in radius. -/
noncomputable def bestDockScoreR (stations : List StationRecord)
    (dest_lat dest_lon r : ℝ) : ℝ :=
  let scores := (stations.filter
      (fun s => decide (haversine_m dest_lat dest_lon s.lat s.lon ≤ r))).map
    (fun s => dock_frac s.docks_available s.capacity)
  match scores with
  | [] => 0.0
  | x :: xs => xs.foldl max x

/-- `best_dock_score_near_dest` (scoring.py lines 35-44).  The Python radius
argument defaults to `None`, and `radius_m or settings.DEST_STATION_RADIUS_M`
replaces both `None` and `0` by the configured destination radius. -/
noncomputable def best_dock_score_near_dest (cfg : Settings)
    (stations : List StationRecord) (dest_lat dest_lon : ℝ)
    (radius_m : Option ℤ) : ℝ :=
  let r : ℤ :=
    match radius_m with
    | some rm => if rm = 0 then cfg.DEST_STATION_RADIUS_M else rm
    | none => cfg.DEST_STATION_RADIUS_M
  bestDockScoreR stations dest_lat dest_lon (r : ℝ)

/-- `score_station_candidate` (scoring.py lines 47-63).  Note that the Python
function receives `dest_lat` and `dest_lon` but its body never reads them;
the destination enters only through `dest_dock_score`. -/
noncomputable def score_station_candidate (station : StationRecord)
    (origin_lat origin_lon dest_lat dest_lon dest_dock_score : ℝ) : ℝ :=
  let walk_m := haversine_m origin_lat origin_lon station.lat station.lon
  let walk_min := walk_m / 80.0
  let proximity := sigmoid_minutes walk_min
  let avail := availability_frac station.bikes_available station.capacity
  0.35 * proximity + 0.35 * avail + 0.30 * dest_dock_score

/-! ### recommend.py: candidate selection, ranking, response -/

/-- Python `round(x, d)` on our real-number model: scale by `10^d` and round
to the nearest integer. -/
noncomputable def roundTo (d : ℕ) (x : ℝ) : ℝ :=
  ((round (x * 10 ^ d) : ℤ) : ℝ) / 10 ^ d

/-- The result dict appended for a selected station (recommend.py lines
130-150): station fields plus the distance rounded to 1 decimal and the score
rounded to 4 decimals. -/
noncomputable def candidateOf (o_lat o_lon d_lat d_lon dds : ℝ)
    (s : StationRecord) : Candidate :=
  { station_id := s.id
    name := s.name
    lat := s.lat
    lon := s.lon
    bikes_available := s.bikes_available
    docks_available := s.docks_available
    capacity := s.capacity
    distance_m := roundTo 1 (haversine_m o_lat o_lon s.lat s.lon)
    score := roundTo 4 (score_station_candidate s o_lat o_lon d_lat d_lon dds) }

/-- The candidate loop of `recommend` (recommend.py lines 126-150): keep the
stations within the origin search radius (inclusive) with positive capacity,
in catalog order, and shape each into a result entry. -/
noncomputable def buildCandidates (cfg : Settings) (stations : List StationRecord)
    (o_lat o_lon d_lat d_lon dds : ℝ) : List Candidate :=
  (stations.filter (fun s =>
      decide (haversine_m o_lat o_lon s.lat s.lon ≤ (cfg.ORIGIN_SEARCH_RADIUS_M : ℝ)
        ∧ 0 < s.capacity))).map
    (candidateOf o_lat o_lon d_lat d_lon dds)

/-- The comparison used by `candidates.sort(key=lambda x: x["score"],
reverse=True)` (recommend.py line 152): `a` must come strictly before `b`
exactly when `a`'s (rounded) score is strictly larger. -/
def scoreDescLt (a b : Candidate) : Prop := b.score < a.score

noncomputable instance : DecidableRel scoreDescLt :=
  fun a b => Real.decidableLT _ _

/-- The tail of `recommend` after both points are resolved (recommend.py
lines 126-160): build candidates, stable-sort by rounded score descending,
and shape the response. -/
noncomputable def recommendCore (cfg : Settings) (stations : List StationRecord)
    (o_lat o_lon : ℝ) (o_name : Option String) (d_lat d_lon dds : ℝ)
    (limit : ℕ) : RecommendResponse :=
  let candidates := buildCandidates cfg stations o_lat o_lon d_lat d_lon dds
  let sorted := stableSort scoreDescLt candidates
  { provider := "TfL / Santander Cycles"
    origin_lat := o_lat
    origin_lon := o_lon
    origin_name := if truthy o_name then o_name else none
    count := min candidates.length limit
    results := sorted.take limit }

/-- `recommend` (recommend.py lines 62-160).  An empty snapshot is a 503;
the origin is resolved first (so origin errors win over destination errors);
a destination is resolved only when some destination field is supplied
(`any([...])` with Python truthiness), and otherwise the destination point
falls back to the origin with a zero dock score. -/
noncomputable def recommend (cfg : Settings) (stations : List StationRecord)
    (origin_station_id origin_q : Option String)
    (origin_lat origin_lon : Option ℝ)
    (dest_station_id dest_q : Option String)
    (dest_lat dest_lon : Option ℝ)
    (limit : ℕ) : Except HttpError RecommendResponse :=
  if stations.isEmpty then .error ⟨503, "No TfL station data available"⟩
  else
    match resolvePoint stations origin_lat origin_lon origin_station_id origin_q "origin" with
    | .error e => .error e
    | .ok (o_lat, o_lon, o_name) =>
      let hasDest := truthy dest_station_id || truthy dest_q ||
        dest_lat.isSome || dest_lon.isSome
      if hasDest then
        match resolvePoint stations dest_lat dest_lon dest_station_id dest_q "destination" with
        | .error e => .error e
        | .ok (d_lat, d_lon, _) =>
          .ok (recommendCore cfg stations o_lat o_lon o_name d_lat d_lon
            (best_dock_score_near_dest cfg stations d_lat d_lon none) limit)
      else
        .ok (recommendCore cfg stations o_lat o_lon o_name o_lat o_lon 0.0 limit)

/-! ### General lemmas about the stable sort -/

theorem stInsert_perm (lt : α → α → Prop) [DecidableRel lt] (x : α) (l : List α) :
    (stInsert lt x l).Perm (x :: l) := by
  induction l with
  | nil => simp [stInsert]
  | cons y ys ih =>
    by_cases h : lt y x
    · simp only [stInsert, if_pos h]
      exact ((ih.cons y).trans (List.Perm.swap x y ys))
    · simp [stInsert, if_neg h]

theorem stableSort_perm (lt : α → α → Prop) [DecidableRel lt] (l : List α) :
    (stableSort lt l).Perm l := by
  induction l with
  | nil => simp [stableSort]
  | cons x xs ih =>
    exact (stInsert_perm lt x (stableSort lt xs)).trans (ih.cons x)

theorem stInsert_decomp (lt : α → α → Prop) [DecidableRel lt] (x : α) (l : List α) :
    ∃ l1 l2, l = l1 ++ l2 ∧ stInsert lt x l = l1 ++ x :: l2 ∧ ∀ z ∈ l1, lt z x := by
  induction l with
  | nil => exact ⟨[], [], by simp [stInsert]⟩
  | cons y ys ih =>
    by_cases h : lt y x
    · obtain ⟨l1, l2, he, hi, hz⟩ := ih
      refine ⟨y :: l1, l2, by simp [he], ?_, ?_⟩
      · simp [stInsert, if_pos h, hi]
      · intro z hzmem
        rcases List.mem_cons.mp hzmem with rfl | hmem
        · exact h
        · exact hz z hmem
    · exact ⟨[], y :: ys, by simp, by simp [stInsert, if_neg h], by simp⟩

theorem stInsert_pairwise (lt : α → α → Prop) [DecidableRel lt]
    (hneg : ∀ a b c, ¬ lt b a → ¬ lt c b → ¬ lt c a)
    (hasymm : ∀ a b, lt a b → ¬ lt b a)
    (x : α) (l : List α) (hl : l.Pairwise (fun a b => ¬ lt b a)) :
    (stInsert lt x l).Pairwise (fun a b => ¬ lt b a) := by
  induction l with
  | nil => simp [stInsert]
  | cons y ys ih =>
    rcases List.pairwise_cons.mp hl with ⟨hy, hys⟩
    by_cases h : lt y x
    · simp only [stInsert, if_pos h]
      refine List.pairwise_cons.mpr ⟨?_, ih hys⟩
      intro z hz
      have := (stInsert_perm lt x ys).mem_iff.mp hz
      rcases List.mem_cons.mp this with rfl | hmem
      · exact hasymm y z h
      · exact hy z hmem
    · simp only [stInsert, if_neg h]
      refine List.pairwise_cons.mpr ⟨?_, hl⟩
      intro z hz
      rcases List.mem_cons.mp hz with rfl | hmem
      · exact h
      · exact hneg x y z h (hy z hmem)

theorem stableSort_pairwise (lt : α → α → Prop) [DecidableRel lt]
    (hneg : ∀ a b c, ¬ lt b a → ¬ lt c b → ¬ lt c a)
    (hasymm : ∀ a b, lt a b → ¬ lt b a)
    (l : List α) : (stableSort lt l).Pairwise (fun a b => ¬ lt b a) := by
  induction l with
  | nil => simp [stableSort]
  | cons x xs ih => exact stInsert_pairwise lt hneg hasymm x _ ih

theorem stableSort_filter_tie (lt : α → α → Prop) [DecidableRel lt]
    (p : α → Prop) [DecidablePred p]
    (hp : ∀ a b, p a → p b → ¬ lt a b)
    (l : List α) :
    (stableSort lt l).filter (fun a => decide (p a)) =
      l.filter (fun a => decide (p a)) := by
  induction l with
  | nil => simp [stableSort]
  | cons x xs ih =>
    show (stInsert lt x (stableSort lt xs)).filter _ = _
    obtain ⟨l1, l2, he, hi, hz⟩ := stInsert_decomp lt x (stableSort lt xs)
    by_cases hx : p x
    · have hl1 : l1.filter (fun a => decide (p a)) = [] := by
        rw [List.filter_eq_nil_iff]
        intro z hzmem
        simp only [decide_eq_true_eq]
        intro hpz
        exact hp z x hpz hx (hz z hzmem)
      rw [hi, List.filter_append, hl1, List.filter_cons, if_pos (by simpa using hx)]
      simp only [List.nil_append]
      rw [List.filter_cons, if_pos (by simpa using hx)]
      congr 1
      rw [← ih, he, List.filter_append, hl1, List.nil_append]
    · rw [hi, List.filter_append, List.filter_cons, if_neg (by simpa using hx)]
      rw [List.filter_cons, if_neg (by simpa using hx), ← ih, he, List.filter_append]

theorem stableSort_head_min (lt : α → α → Prop) [DecidableRel lt]
    (hneg : ∀ a b c, ¬ lt b a → ¬ lt c b → ¬ lt c a)
    (hasymm : ∀ a b, lt a b → ¬ lt b a)
    (l : List α) (st : α) (rest : List α) (h : stableSort lt l = st :: rest) :
    ∃ i : Fin l.length, l.get i = st ∧ (∀ j : Fin l.length, ¬ lt (l.get j) st)
      ∧ ∀ j : Fin l.length, (j : ℕ) < (i : ℕ) → lt st (l.get j) := by
  induction l generalizing st rest with
  | nil => simp [stableSort] at h
  | cons x xs ih =>
    have hirrefl : ∀ a, ¬ lt a a := fun a ha => hasymm a a ha ha
    rw [show stableSort lt (x :: xs) = stInsert lt x (stableSort lt xs) from rfl] at h
    rcases hxs : stableSort lt xs with _ | ⟨m, r⟩
    · have hempty : xs = [] := by
        have := (stableSort_perm lt xs).length_eq
        rw [hxs] at this
        exact List.length_eq_zero.mp this.symm
      subst hempty
      rw [hxs] at h
      simp only [stInsert] at h
      injection h with h1 h2
      subst h1
      refine ⟨⟨0, by simp⟩, rfl, ?_, ?_⟩
      · intro j
        have : j = ⟨0, by simp⟩ := Fin.ext (by simp)
        rw [this]
        exact hirrefl x
      · intro j hj
        simp at hj
    · rw [hxs] at h
      obtain ⟨im, hm, hmin, hbefore⟩ := ih m r hxs
      simp only [stInsert] at h
      by_cases hlt : lt m x
      · rw [if_pos hlt] at h
        injection h with h1 h2
        subst h1
        refine ⟨im.succ, by simpa using hm, ?_, ?_⟩
        · intro j
          rcases Fin.eq_zero_or_eq_succ j with rfl | ⟨k, rfl⟩
          · simpa using hasymm m x hlt
          · simpa using hmin k
        · intro j hj
          rcases Fin.eq_zero_or_eq_succ j with rfl | ⟨k, rfl⟩
          · simpa using hlt
          · have : (k : ℕ) < (im : ℕ) := by simpa using hj
            simpa using hbefore k this
      · rw [if_neg hlt] at h
        injection h with h1 h2
        subst h1
        refine ⟨⟨0, by simp⟩, rfl, ?_, ?_⟩
        · intro j
          rcases Fin.eq_zero_or_eq_succ j with rfl | ⟨k, rfl⟩
          · simpa using hirrefl x
          · have h1 : ¬ lt (xs.get k) m := hmin k
            simpa using hneg x m (xs.get k) hlt h1
        · intro j hj
          simp at hj

/-! ### General lemmas about the fold-maximum -/

theorem foldl_max_init_le (xs : List ℝ) : ∀ x : ℝ, x ≤ xs.foldl max x := by
  induction xs with
  | nil => intro x; simp
  | cons z zs ih =>
    intro x
    calc x ≤ max x z := le_max_left x z
    _ ≤ zs.foldl max (max x z) := ih (max x z)
    _ = (z :: zs).foldl max x := rfl

theorem foldl_max_le_mem (xs : List ℝ) : ∀ (x y : ℝ), y ∈ xs → y ≤ xs.foldl max x := by
  induction xs with
  | nil => intro x y h; simp at h
  | cons z zs ih =>
    intro x y h
    rcases List.mem_cons.mp h with rfl | hmem
    · calc y ≤ max x y := le_max_right x y
      _ ≤ zs.foldl max (max x y) := foldl_max_init_le zs _
      _ = (y :: zs).foldl max x := rfl
    · exact ih (max x z) y hmem

theorem foldl_max_mem (xs : List ℝ) : ∀ x : ℝ,
    xs.foldl max x = x ∨ xs.foldl max x ∈ xs := by
  induction xs with
  | nil => intro x; left; rfl
  | cons z zs ih =>
    intro x
    rcases ih (max x z) with h | h
    · rcases max_choice x z with hc | hc
      · left
        show zs.foldl max (max x z) = x
        rw [h, hc]
      · right
        apply List.mem_cons.mpr
        left
        show zs.foldl max (max x z) = z
        rw [h, hc]
    · exact Or.inr (List.mem_cons.mpr (Or.inr h))

/-! ### Substring semantics -/

theorem startsWithL_iff [DecidableEq α] (n h : List α) :
    startsWithL n h = true ↔ ∃ post, h = n ++ post := by
  induction n generalizing h with
  | nil => simp [startsWithL]
  | cons a as ih =>
    cases h with
    | nil =>
      simp only [startsWithL, Bool.false_eq_true, false_iff]
      rintro ⟨post, hpost⟩
      simp at hpost
    | cons b bs =>
      simp only [startsWithL, Bool.and_eq_true, decide_eq_true_eq, ih]
      constructor
      · rintro ⟨rfl, post, rfl⟩
        exact ⟨post, rfl⟩
      · rintro ⟨post, hpost⟩
        obtain ⟨rfl, rfl⟩ := by exact List.cons.inj hpost
        exact ⟨rfl, post, rfl⟩

theorem containsSub_iff [DecidableEq α] (n h : List α) :
    containsSub n h = true ↔ ∃ pre post, h = pre ++ n ++ post := by
  induction h with
  | nil =>
    simp only [containsSub, List.isEmpty_iff]
    constructor
    · rintro rfl; exact ⟨[], [], rfl⟩
    · rintro ⟨pre, post, hp⟩
      rcases List.append_eq_nil.mp (List.append_eq_nil.mp hp.symm).1 with ⟨_, h2⟩
      exact h2
  | cons b bs ih =>
    simp only [containsSub, Bool.or_eq_true, startsWithL_iff, ih]
    constructor
    · rintro (⟨post, hpost⟩ | ⟨pre, post, hpp⟩)
      · exact ⟨[], post, by simp [hpost]⟩
      · exact ⟨b :: pre, post, by simp [hpp]⟩
    · rintro ⟨pre, post, hpp⟩
      cases pre with
      | nil => exact Or.inl ⟨post, by simpa using hpp⟩
      | cons c cs =>
        right
        refine ⟨cs, post, ?_⟩
        have := List.cons.inj (by simpa using hpp)
        simpa [List.append_assoc] using this.2

/-! ### Distance at identical coordinates -/

theorem haversine_self (la lo : ℝ) : haversine_m la lo la lo = 0 := by
  simp [haversine_m]

/-! ### Helper views of the scoring function -/

/-- The `proximity` local of `score_station_candidate` (scoring.py lines
56-58), as a function of origin and station. -/
noncomputable def proximityOf (o_lat o_lon : ℝ) (s : StationRecord) : ℝ :=
  sigmoid_minutes (haversine_m o_lat o_lon s.lat s.lon / 80.0)

/-- `score_station_candidate` as a function of the walking distance in
meters, with the availability and destination terms held fixed. -/
noncomputable def scoreAtDistance (walk_m avail dds : ℝ) : ℝ :=
  0.35 * sigmoid_minutes (walk_m / 80.0) + 0.35 * avail + 0.30 * dds

theorem sigmoid_minutes_strictAnti {m1 m2 : ℝ} (h : m1 < m2) :
    sigmoid_minutes m2 < sigmoid_minutes m1 := by
  unfold sigmoid_minutes
  have he : Real.exp ((m1 - 6) / 1.5) < Real.exp ((m2 - 6) / 1.5) := by
    apply Real.exp_lt_exp.mpr
    have h15 : (0:ℝ) < 1.5 := by norm_num
    exact (div_lt_div_right h15).mpr (by linarith)
  have h1 : (0:ℝ) < 1.0 + Real.exp ((m1 - 6) / 1.5) := by positivity
  have h2 : (0:ℝ) < 1.0 + Real.exp ((m2 - 6) / 1.5) := by positivity
  rw [div_lt_div_iff h2 h1]
  nlinarith

/-! ### Claims -/

/-- C10: the score of a candidate station is a deterministic pure function
that does not depend on the `dest_lat`/`dest_lon` arguments, nor on the
station's `id`, `name` or `docks_available` fields: two calls with equal
coordinates, capacity, bikes and `dest_dock_score` give equal scores even
when the destination coordinate arguments differ. -/
theorem C10_score_ignores_dest_coords (id1 id2 : String) (nm1 nm2 : Option String)
    (lat lon : ℝ) (cap bikes docks1 docks2 : ℤ)
    (o_lat o_lon d_lat d_lon d_lat' d_lon' dds : ℝ) :
    score_station_candidate ⟨id1, nm1, lat, lon, cap, bikes, docks1⟩
        o_lat o_lon d_lat d_lon dds
      = score_station_candidate ⟨id2, nm2, lat, lon, cap, bikes, docks2⟩
        o_lat o_lon d_lat' d_lon' dds := rfl

/-- C8: the proximity transform equals exactly 0.5 at six walking minutes,
`score_station_candidate` factors through the walking distance as
`scoreAtDistance`, and the score is strictly decreasing (hence
non-increasing) in the walking distance with availability and destination
influence held fixed. -/
theorem C8_proximity_half_and_score_antitone :
    sigmoid_minutes 6 = 0.5
    ∧ (∀ (s : StationRecord) (o_lat o_lon d_lat d_lon dds : ℝ),
        score_station_candidate s o_lat o_lon d_lat d_lon dds
          = scoreAtDistance (haversine_m o_lat o_lon s.lat s.lon)
              (availability_frac s.bikes_available s.capacity) dds)
    ∧ ∀ avail dds d1 d2 : ℝ, d1 < d2 →
        scoreAtDistance d2 avail dds < scoreAtDistance d1 avail dds := by
  refine ⟨?_, fun s o_lat o_lon d_lat d_lon dds => rfl, ?_⟩
  · unfold sigmoid_minutes
    rw [show ((6:ℝ) - 6) / 1.5 = 0 by norm_num, Real.exp_zero]
    norm_num
  · intro avail dds d1 d2 h
    have hs := sigmoid_minutes_strictAnti (show d1 / 80.0 < d2 / 80.0 by linarith)
    unfold scoreAtDistance
    nlinarith [hs]

/-- Witness for C8 at concrete inputs: walking 80 meters scores strictly
below walking 0 meters (fixed availability 0.5, no destination term). -/
theorem C8_witness :
    scoreAtDistance 80 0.5 0 < scoreAtDistance 0 0.5 0 :=
  C8_proximity_half_and_score_antitone.2.2 0.5 0 0 80 (by norm_num)

/-- C3: the composite score is `0.35·proximity + 0.35·availability +
0.30·dest_dock_score`; at `dest_dock_score = 0` this is the two-term sum;
and a request without any destination locator runs the scoring pipeline
with `dest_dock_score = 0` (and the destination point set to the origin,
which the score ignores). -/
theorem C3_score_formula_and_no_dest_zero :
    (∀ (s : StationRecord) (o_lat o_lon d_lat d_lon dds : ℝ),
        score_station_candidate s o_lat o_lon d_lat d_lon dds
          = 0.35 * proximityOf o_lat o_lon s
            + 0.35 * availability_frac s.bikes_available s.capacity
            + 0.30 * dds)
    ∧ (∀ (s : StationRecord) (o_lat o_lon d_lat d_lon : ℝ),
        score_station_candidate s o_lat o_lon d_lat d_lon 0
          = 0.35 * proximityOf o_lat o_lon s
            + 0.35 * availability_frac s.bikes_available s.capacity)
    ∧ ∀ (cfg : Settings) (stations : List StationRecord)
        (osid oq : Option String) (olat olon : Option ℝ) (lim : ℕ),
        stations.isEmpty = false →
        recommend cfg stations osid oq olat olon none none none none lim =
          match resolvePoint stations olat olon osid oq "origin" with
          | .error e => .error e
          | .ok (o_lat, o_lon, o_name) =>
            .ok (recommendCore cfg stations o_lat o_lon o_name o_lat o_lon 0.0 lim) := by
  have h1 : ∀ (s : StationRecord) (o_lat o_lon d_lat d_lon dds : ℝ),
      score_station_candidate s o_lat o_lon d_lat d_lon dds
        = 0.35 * proximityOf o_lat o_lon s
          + 0.35 * availability_frac s.bikes_available s.capacity
          + 0.30 * dds := fun s o_lat o_lon d_lat d_lon dds => rfl
  refine ⟨h1, ?_, ?_⟩
  · intro s o_lat o_lon d_lat d_lon
    rw [h1]
    ring
  · intro cfg stations osid oq olat olon lim hne
    unfold recommend
    rw [hne]
    simp only [Bool.false_eq_true, if_false, truthy, Option.isSome_none,
      Bool.or_false, Bool.false_or]

/-- Witness for C3's pipeline conjunct at a concrete request: one station,
origin given by coordinates, no destination locator. -/
noncomputable def wSt : StationRecord :=
  ⟨"BikePoints_1", some "Test Sq", 51.5, -0.12, 10, 5, 5⟩

theorem C3_witness :
    recommend defaultSettings [wSt] none none (some 51.5) (some (-0.12))
        none none none none 3 =
      match resolvePoint [wSt] (some 51.5) (some (-0.12)) none none "origin" with
      | .error e => .error e
      | .ok (o_lat, o_lon, o_name) =>
        .ok (recommendCore defaultSettings [wSt] o_lat o_lon o_name o_lat o_lon 0.0 3) :=
  C3_score_formula_and_no_dest_zero.2.2 defaultSettings [wSt] none none
    (some 51.5) (some (-0.12)) 3 rfl

/-- C7 (precedence of locator styles in `_resolve_point`): a truthy station
ID makes the other fields irrelevant; with no truthy ID, a full coordinate
pair wins over any name query; only when no style at all is supplied does
resolution fail with the 400 error. -/
theorem C7_locator_precedence (stations : List StationRecord) (lat lon : Option ℝ)
    (sid q : Option String) (role : String) :
    (truthy sid = true →
        resolvePoint stations lat lon sid q role
          = resolvePoint stations none none sid none role)
    ∧ (∀ la lo : ℝ, truthy sid = false →
        resolvePoint stations (some la) (some lo) sid q role = .ok (la, lo, none))
    ∧ (truthy sid = false → (lat = none ∨ lon = none) → truthy q = false →
        resolvePoint stations lat lon sid q role
          = .error ⟨400, role ++ ": provide either station_id OR name query OR lat & lon"⟩) := by
  refine ⟨?_, ?_, ?_⟩
  · intro h
    simp [resolvePoint, h]
  · intro la lo h
    simp [resolvePoint, h]
  · intro h1 h2 h3
    rcases h2 with rfl | rfl
    · cases lon <;> simp [resolvePoint, h1, h3]
    · cases lat <;> simp [resolvePoint, h1, h3]

/-- Witness for C7 at concrete inputs: ID beats coordinates and name;
coordinates beat a name query; nothing supplied is a 400. -/
theorem C7_witness :
    (resolvePoint [wSt] (some 1) (some 2) (some "BikePoints_1") (some "Test") "origin"
        = resolvePoint [wSt] none none (some "BikePoints_1") none "origin")
    ∧ resolvePoint [wSt] (some 1) (some 2) none (some "Test") "origin" = .ok (1, 2, none)
    ∧ resolvePoint [wSt] none none none none "origin"
        = .error ⟨400, "origin: provide either station_id OR name query OR lat & lon"⟩ :=
  ⟨(C7_locator_precedence [wSt] (some 1) (some 2) (some "BikePoints_1") (some "Test") "origin").1 rfl,
   (C7_locator_precedence [wSt] (some 1) (some 2) none (some "Test") "origin").2.1 1 2 rfl,
   (C7_locator_precedence [wSt] none none none none "origin").2.2 rfl (Or.inl rfl) rfl⟩

/-- Branch shape of `_resolve_point` when a truthy station ID is supplied:
the other locator fields are irrelevant and the ID lookup decides. -/
theorem resolvePoint_id_branch (stations : List StationRecord) (lat lon : Option ℝ)
    (sid q : Option String) (role : String) (hsid : truthy sid = true) :
    resolvePoint stations lat lon sid q role =
      match get_station_by_id stations (sid.getD "") with
      | none => .error ⟨404, role ++ ": BikePoint ID not found"⟩
      | some st => .ok (st.lat, st.lon, st.name) := by
  cases lat <;> cases lon <;> simp [resolvePoint, hsid]

/-- Branch shape of `_resolve_point` when the station ID is absent/empty and
the coordinate pair is incomplete: the name query decides. -/
theorem resolvePoint_name_branch (stations : List StationRecord) (lat lon : Option ℝ)
    (sid q : Option String) (role : String) (hsid : truthy sid = false)
    (hco : lat = none ∨ lon = none) :
    resolvePoint stations lat lon sid q role =
      if truthy q then
        match get_station_by_name stations (q.getD "") with
        | none => .error ⟨404, role ++ ": no station matched name query"⟩
        | some st => .ok (st.lat, st.lon, st.name)
      else
        .error ⟨400, role ++ ": provide either station_id OR name query OR lat & lon"⟩ := by
  rcases hco with rfl | rfl
  · cases lon <;> simp [resolvePoint, hsid]
  · cases lat <;> simp [resolvePoint, hsid]

/-- C1 (amended): point resolution fails with `InvalidInput` (400) exactly
when no locator style is supplied (a truthy ID, a full lat/lon pair, or a
truthy name query); when several styles are supplied the precedence policy
applies instead of an error.  `NotFound` (404) arises when the style chosen
by precedence is an ID or a name query and it matches nothing. -/
theorem C1_resolution_errors (stations : List StationRecord) (lat lon : Option ℝ)
    (sid q : Option String) (role : String) :
    (resolvePoint stations lat lon sid q role
        = .error ⟨400, role ++ ": provide either station_id OR name query OR lat & lon"⟩
      ↔ truthy sid = false ∧ (lat = none ∨ lon = none) ∧ truthy q = false)
    ∧ (truthy sid = true → get_station_by_id stations (sid.getD "") = none →
        resolvePoint stations lat lon sid q role
          = .error ⟨404, role ++ ": BikePoint ID not found"⟩)
    ∧ (truthy sid = false → (lat = none ∨ lon = none) → truthy q = true →
        get_station_by_name stations (q.getD "") = none →
        resolvePoint stations lat lon sid q role
          = .error ⟨404, role ++ ": no station matched name query"⟩) := by
  refine ⟨⟨?_, ?_⟩, ?_, ?_⟩
  · intro h
    by_cases hsid : truthy sid = true
    · exfalso
      rw [resolvePoint_id_branch stations lat lon sid q role hsid] at h
      rcases hid : get_station_by_id stations (sid.getD "") with _ | st <;>
        rw [hid] at h <;> simp at h
    · have hsid' : truthy sid = false := by simpa using hsid
      refine ⟨hsid', ?_⟩
      rcases hlat : lat with _ | la <;> rcases hlon : lon with _ | lo
      · refine ⟨Or.inl rfl, ?_⟩
        rw [hlat, hlon, resolvePoint_name_branch stations none none sid q role hsid'
          (Or.inl rfl)] at h
        by_cases hq : truthy q = true
        · exfalso
          rw [if_pos hq] at h
          rcases hn : get_station_by_name stations (q.getD "") with _ | st <;>
            rw [hn] at h <;> simp at h
        · simpa using hq
      · refine ⟨Or.inl rfl, ?_⟩
        rw [hlat, hlon, resolvePoint_name_branch stations none (some lo) sid q role hsid'
          (Or.inl rfl)] at h
        by_cases hq : truthy q = true
        · exfalso
          rw [if_pos hq] at h
          rcases hn : get_station_by_name stations (q.getD "") with _ | st <;>
            rw [hn] at h <;> simp at h
        · simpa using hq
      · refine ⟨Or.inr rfl, ?_⟩
        rw [hlat, hlon, resolvePoint_name_branch stations (some la) none sid q role hsid'
          (Or.inr rfl)] at h
        by_cases hq : truthy q = true
        · exfalso
          rw [if_pos hq] at h
          rcases hn : get_station_by_name stations (q.getD "") with _ | st <;>
            rw [hn] at h <;> simp at h
        · simpa using hq
      · exfalso
        rw [hlat, hlon] at h
        simp [resolvePoint, hsid'] at h
  · rintro ⟨h1, h2, h3⟩
    rw [resolvePoint_name_branch stations lat lon sid q role h1 h2, if_neg (by simp [h3])]
  · intro hsid hid
    rw [resolvePoint_id_branch stations lat lon sid q role hsid, hid]
  · intro hsid hco hq hn
    rw [resolvePoint_name_branch stations lat lon sid q role hsid hco, if_pos hq, hn]

/-- Counterexample to C1 as stated: a request supplying all three locator
styles at once (ID, coordinates and name query) does not fail with
`InvalidInput`; resolution succeeds via the ID. -/
theorem C1_counterexample :
    resolvePoint [wSt] (some 1) (some 2) (some "BikePoints_1") (some "Test") "origin"
        = .ok (51.5, -0.12, some "Test Sq")
    ∧ resolvePoint [wSt] (some 1) (some 2) (some "BikePoints_1") (some "Test") "origin"
        ≠ .error ⟨400, "origin: provide either station_id OR name query OR lat & lon"⟩ := by
  constructor
  · rfl
  · rw [show resolvePoint [wSt] (some 1) (some 2) (some "BikePoints_1") (some "Test") "origin"
        = .ok (51.5, -0.12, some "Test Sq") from rfl]
    simp

/-- Witness for C1's amended taxonomy at concrete inputs: an unknown ID is a
404 naming the role, and supplying nothing is the 400 error. -/
theorem C1_witness :
    resolvePoint [wSt] none none (some "BikePoints_99") none "origin"
        = .error ⟨404, "origin: BikePoint ID not found"⟩
    ∧ resolvePoint [wSt] none none none none "destination"
        = .error ⟨400, "destination: provide either station_id OR name query OR lat & lon"⟩ :=
  ⟨(C1_resolution_errors [wSt] none none (some "BikePoints_99") none "origin").2.1 rfl rfl,
   (C1_resolution_errors [wSt] none none none none "destination").1.mpr ⟨rfl, Or.inl rfl, rfl⟩⟩

/-- C4: the candidate loop of `recommend` keeps a station's entry exactly
when the station's haversine distance to the origin is within the configured
origin radius (boundary inclusive) and its capacity is positive; an entry
for a station with nonpositive capacity never appears, for any origin,
radius configuration or destination influence. -/
theorem C4_candidate_selection (cfg : Settings) (stations : List StationRecord)
    (o_lat o_lon d_lat d_lon dds : ℝ) :
    (∀ c ∈ buildCandidates cfg stations o_lat o_lon d_lat d_lon dds,
      ∃ s ∈ stations,
        c = candidateOf o_lat o_lon d_lat d_lon dds s
        ∧ haversine_m o_lat o_lon s.lat s.lon ≤ (cfg.ORIGIN_SEARCH_RADIUS_M : ℝ)
        ∧ 0 < s.capacity)
    ∧ (∀ s ∈ stations,
        haversine_m o_lat o_lon s.lat s.lon ≤ (cfg.ORIGIN_SEARCH_RADIUS_M : ℝ) →
        0 < s.capacity →
        candidateOf o_lat o_lon d_lat d_lon dds s
          ∈ buildCandidates cfg stations o_lat o_lon d_lat d_lon dds)
    ∧ ∀ s : StationRecord, s.capacity ≤ 0 →
        candidateOf o_lat o_lon d_lat d_lon dds s
          ∉ buildCandidates cfg stations o_lat o_lon d_lat d_lon dds := by
  have hsound : ∀ c ∈ buildCandidates cfg stations o_lat o_lon d_lat d_lon dds,
      ∃ s ∈ stations,
        c = candidateOf o_lat o_lon d_lat d_lon dds s
        ∧ haversine_m o_lat o_lon s.lat s.lon ≤ (cfg.ORIGIN_SEARCH_RADIUS_M : ℝ)
        ∧ 0 < s.capacity := by
    intro c hc
    unfold buildCandidates at hc
    rcases List.mem_map.mp hc with ⟨s, hs, rfl⟩
    rcases List.mem_filter.mp hs with ⟨hsst, hp⟩
    rw [decide_eq_true_eq] at hp
    exact ⟨s, hsst, rfl, hp.1, hp.2⟩
  refine ⟨hsound, ?_, ?_⟩
  · intro s hs h1 h2
    unfold buildCandidates
    apply List.mem_map.mpr
    exact ⟨s, List.mem_filter.mpr ⟨hs, by rw [decide_eq_true_eq]; exact ⟨h1, h2⟩⟩, rfl⟩
  · intro s hcap hmem
    rcases hsound _ hmem with ⟨s', hs', heq, hrad, hcappos⟩
    have hc : s.capacity = s'.capacity := congrArg Candidate.capacity heq
    omega

/-- Witness for C4 at a concrete catalog: the single station sits at the
origin (distance 0 ≤ 800) with capacity 10 > 0, so its entry is selected. -/
theorem C4_witness :
    candidateOf 51.5 (-0.12) 51.5 (-0.12) 0 wSt
      ∈ buildCandidates defaultSettings [wSt] 51.5 (-0.12) 51.5 (-0.12) 0 :=
  (C4_candidate_selection defaultSettings [wSt] 51.5 (-0.12) 51.5 (-0.12) 0).2.1 wSt
    (by simp)
    (by rw [show wSt.lat = (51.5 : ℝ) from rfl, show wSt.lon = (-0.12 : ℝ) from rfl,
          haversine_self]
        norm_num [defaultSettings])
    (by norm_num [wSt])

theorem dock_frac_nonneg (docks cap : ℤ) : 0 ≤ dock_frac docks cap := by
  unfold dock_frac
  split
  · norm_num
  · exact le_max_iff.mpr (Or.inl (by norm_num))

theorem dock_frac_le_one (docks cap : ℤ) : dock_frac docks cap ≤ 1 := by
  unfold dock_frac
  split
  · norm_num
  · exact max_le (by norm_num) (le_trans (min_le_left _ _) (by norm_num))

theorem foldl_max_le_of_mem (x y : ℝ) (xs : List ℝ) (h : y ∈ x :: xs) :
    y ≤ xs.foldl max x := by
  rcases List.mem_cons.mp h with rfl | hmem
  · exact foldl_max_init_le xs y
  · exact foldl_max_le_mem xs x y hmem

/-- Shape of `bestDockScoreR` when no station is in radius. -/
theorem bestDockScoreR_nil (stations : List StationRecord) (d_lat d_lon r : ℝ)
    (hs : (stations.filter
        (fun s => decide (haversine_m d_lat d_lon s.lat s.lon ≤ r))).map
        (fun s => dock_frac s.docks_available s.capacity) = []) :
    bestDockScoreR stations d_lat d_lon r = 0.0 := by
  simp only [bestDockScoreR]
  rw [hs]

/-- Shape of `bestDockScoreR` when some station is in radius. -/
theorem bestDockScoreR_cons (stations : List StationRecord) (d_lat d_lon r : ℝ)
    (x : ℝ) (xs : List ℝ)
    (hs : (stations.filter
        (fun s => decide (haversine_m d_lat d_lon s.lat s.lon ≤ r))).map
        (fun s => dock_frac s.docks_available s.capacity) = x :: xs) :
    bestDockScoreR stations d_lat d_lon r = xs.foldl max x := by
  simp only [bestDockScoreR]
  rw [hs]

/-- C5: `best_dock_score_near_dest` (through its radius-resolved body
`bestDockScoreR`) always lies in [0, 1]; it is 0 when no station is within
the radius; it bounds the dock ratio of every in-radius station from above
and is attained by one of them when any exists; the dock ratio is the
clamped `docks/capacity` with 0 for nonpositive capacity; and the
configured-radius entry point agrees with the body. -/
theorem C5_best_dock_score (stations : List StationRecord) (d_lat d_lon r : ℝ) :
    (0 ≤ bestDockScoreR stations d_lat d_lon r
      ∧ bestDockScoreR stations d_lat d_lon r ≤ 1)
    ∧ ((∀ s ∈ stations, ¬ haversine_m d_lat d_lon s.lat s.lon ≤ r) →
        bestDockScoreR stations d_lat d_lon r = 0)
    ∧ (∀ s ∈ stations, haversine_m d_lat d_lon s.lat s.lon ≤ r →
        dock_frac s.docks_available s.capacity ≤ bestDockScoreR stations d_lat d_lon r)
    ∧ ((∃ s ∈ stations, haversine_m d_lat d_lon s.lat s.lon ≤ r) →
        ∃ s ∈ stations, haversine_m d_lat d_lon s.lat s.lon ≤ r ∧
          bestDockScoreR stations d_lat d_lon r = dock_frac s.docks_available s.capacity)
    ∧ (∀ docks cap : ℤ, cap ≤ 0 → dock_frac docks cap = 0)
    ∧ (∀ docks cap : ℤ, 0 < cap →
        dock_frac docks cap = max 0 (min 1 ((docks : ℝ) / (cap : ℝ))))
    ∧ ∀ cfg : Settings, best_dock_score_near_dest cfg stations d_lat d_lon none
        = bestDockScoreR stations d_lat d_lon (cfg.DEST_STATION_RADIUS_M : ℝ) := by
  refine ⟨?_, ?_, ?_, ?_, ?_, ?_, fun cfg => rfl⟩
  · rcases hs : (stations.filter
        (fun s => decide (haversine_m d_lat d_lon s.lat s.lon ≤ r))).map
        (fun s => dock_frac s.docks_available s.capacity) with _ | ⟨x, xs⟩
    · rw [bestDockScoreR_nil stations d_lat d_lon r hs]
      constructor <;> norm_num
    · rw [bestDockScoreR_cons stations d_lat d_lon r x xs hs]
      have hxd : ∀ y ∈ x :: xs, ∃ s : StationRecord,
          y = dock_frac s.docks_available s.capacity := by
        intro y hy
        rw [← hs] at hy
        rcases List.mem_map.mp hy with ⟨s, _, rfl⟩
        exact ⟨s, rfl⟩
      constructor
      · rcases hxd x (List.mem_cons_self x xs) with ⟨s, hxe⟩
        calc (0:ℝ) ≤ x := hxe ▸ dock_frac_nonneg _ _
        _ ≤ xs.foldl max x := foldl_max_init_le xs x
      · rcases foldl_max_mem xs x with hm | hm
        · rcases hxd x (List.mem_cons_self x xs) with ⟨s, hxe⟩
          rw [hm, hxe]
          exact dock_frac_le_one _ _
        · rcases hxd _ (List.mem_cons.mpr (Or.inr hm)) with ⟨s, hxe⟩
          rw [hxe]
          exact dock_frac_le_one _ _
  · intro hall
    have hf : stations.filter
        (fun s => decide (haversine_m d_lat d_lon s.lat s.lon ≤ r)) = [] := by
      rw [List.filter_eq_nil_iff]
      intro s hsmem
      simpa using hall s hsmem
    have := bestDockScoreR_nil stations d_lat d_lon r (by rw [hf]; rfl)
    rw [this]
    norm_num
  · intro s hsmem hrad
    have hmem : dock_frac s.docks_available s.capacity ∈
        (stations.filter
          (fun t => decide (haversine_m d_lat d_lon t.lat t.lon ≤ r))).map
          (fun t => dock_frac t.docks_available t.capacity) :=
      List.mem_map.mpr ⟨s, List.mem_filter.mpr ⟨hsmem, by simpa using hrad⟩, rfl⟩
    rcases hs : (stations.filter
        (fun t => decide (haversine_m d_lat d_lon t.lat t.lon ≤ r))).map
        (fun t => dock_frac t.docks_available t.capacity) with _ | ⟨x, xs⟩
    · rw [hs] at hmem
      simp at hmem
    · rw [hs] at hmem
      rw [bestDockScoreR_cons stations d_lat d_lon r x xs hs]
      exact foldl_max_le_of_mem x _ xs hmem
  · rintro ⟨s, hsmem, hrad⟩
    have hmem : dock_frac s.docks_available s.capacity ∈
        (stations.filter
          (fun t => decide (haversine_m d_lat d_lon t.lat t.lon ≤ r))).map
          (fun t => dock_frac t.docks_available t.capacity) :=
      List.mem_map.mpr ⟨s, List.mem_filter.mpr ⟨hsmem, by simpa using hrad⟩, rfl⟩
    rcases hs : (stations.filter
        (fun t => decide (haversine_m d_lat d_lon t.lat t.lon ≤ r))).map
        (fun t => dock_frac t.docks_available t.capacity) with _ | ⟨x, xs⟩
    · rw [hs] at hmem
      simp at hmem
    · have hbest : bestDockScoreR stations d_lat d_lon r ∈ x :: xs := by
        rw [bestDockScoreR_cons stations d_lat d_lon r x xs hs]
        rcases foldl_max_mem xs x with hm | hm
        · rw [hm]
          exact List.mem_cons_self x xs
        · exact List.mem_cons.mpr (Or.inr hm)
      rw [← hs] at hbest
      rcases List.mem_map.mp hbest with ⟨t, htmem, hteq⟩
      rcases List.mem_filter.mp htmem with ⟨htst, htp⟩
      exact ⟨t, htst, by simpa using htp, hteq.symm⟩
  · intro docks cap hcap
    unfold dock_frac
    rw [if_pos hcap]
    norm_num
  · intro docks cap hcap
    unfold dock_frac
    rw [if_neg (by omega)]
    norm_num

/-- Witness for C5 at a concrete catalog: the single station is at the
destination point (distance 0 ≤ 450), so its dock ratio bounds the best
dock score from below. -/
theorem C5_witness :
    dock_frac wSt.docks_available wSt.capacity
      ≤ bestDockScoreR [wSt] 51.5 (-0.12) 450 :=
  (C5_best_dock_score [wSt] 51.5 (-0.12) 450).2.2.1 wSt (by simp)
    (by rw [show wSt.lat = (51.5 : ℝ) from rfl, show wSt.lon = (-0.12 : ℝ) from rfl,
          haversine_self]
        norm_num)

/-- C9: the response carries `count = min(len(candidates), limit)` and at
most `limit` results (the FastAPI-validated `limit` lies in [1,10], default
3); every result is a selected station's entry (station fields plus rounded
distance and rounded score), so no destination coordinate or intermediate
destination value appears in the payload; and changing the destination
coordinates handed to the core — with the dock score fixed — leaves the
response unchanged: the destination influences the response only through
`dest_dock_score`. -/
theorem C9_response_shape (cfg : Settings) (stations : List StationRecord)
    (o_lat o_lon : ℝ) (o_name : Option String)
    (d_lat d_lon d_lat' d_lon' dds : ℝ) (limit : ℕ)
    (hlo : 1 ≤ limit) (hhi : limit ≤ 10) :
    (recommendCore cfg stations o_lat o_lon o_name d_lat d_lon dds limit).count
      = min (buildCandidates cfg stations o_lat o_lon d_lat d_lon dds).length limit
    ∧ (recommendCore cfg stations o_lat o_lon o_name d_lat d_lon dds limit).results.length
        ≤ limit
    ∧ recommendCore cfg stations o_lat o_lon o_name d_lat' d_lon' dds limit
        = recommendCore cfg stations o_lat o_lon o_name d_lat d_lon dds limit
    ∧ ∀ c ∈ (recommendCore cfg stations o_lat o_lon o_name d_lat d_lon dds limit).results,
        ∃ s ∈ stations, c = candidateOf o_lat o_lon d_lat d_lon dds s := by
  refine ⟨rfl, ?_, rfl, ?_⟩
  · show (List.take limit
        (stableSort scoreDescLt (buildCandidates cfg stations o_lat o_lon d_lat d_lon dds))).length
      ≤ limit
    rw [List.length_take]
    exact min_le_left _ _
  · intro c hc
    have h1 : c ∈ stableSort scoreDescLt
        (buildCandidates cfg stations o_lat o_lon d_lat d_lon dds) :=
      List.take_subset limit _ hc
    have h2 : c ∈ buildCandidates cfg stations o_lat o_lon d_lat d_lon dds :=
      (stableSort_perm scoreDescLt _).mem_iff.mp h1
    unfold buildCandidates at h2
    rcases List.mem_map.mp h2 with ⟨s, hs, rfl⟩
    exact ⟨s, (List.mem_filter.mp hs).1, rfl⟩

/-- Witness for C9 at a concrete request (limit 3, one station at the
origin, destination point equal to the origin with zero dock score). -/
theorem C9_witness :
    (recommendCore defaultSettings [wSt] 51.5 (-0.12) none 51.5 (-0.12) 0 3).count
      = min (buildCandidates defaultSettings [wSt] 51.5 (-0.12) 51.5 (-0.12) 0).length 3
    ∧ (recommendCore defaultSettings [wSt] 51.5 (-0.12) none 51.5 (-0.12) 0 3).results.length
        ≤ 3 :=
  ⟨(C9_response_shape defaultSettings [wSt] 51.5 (-0.12) none 51.5 (-0.12) 51.5 (-0.12) 0 3
      (by norm_num) (by norm_num)).1,
   (C9_response_shape defaultSettings [wSt] 51.5 (-0.12) none 51.5 (-0.12) 51.5 (-0.12) 0 3
      (by norm_num) (by norm_num)).2.1⟩

/-- C6: when `get_station_by_name` returns a station, the hit set is the
case-insensitive substring matches of the stripped query over the full
catalog, and the returned station is a hit of minimal name length whose
position in catalog order precedes every other hit of the same length
(strictly shorter than every earlier hit). -/
theorem C6_name_resolution (stations : List StationRecord) (q : String)
    (st : StationRecord) (h : get_station_by_name stations q = some st) :
    (∀ s, s ∈ stations.filter (fun t => nameMatches (pyLower (pyStrip q.data)) t)
        ↔ s ∈ stations ∧ (pyLower (pyStrip q.data)).isEmpty = false
          ∧ ∃ pre post, pyLower ((s.name.getD "").data)
              = pre ++ pyLower (pyStrip q.data) ++ post)
    ∧ ∃ i : Fin (stations.filter
          (fun t => nameMatches (pyLower (pyStrip q.data)) t)).length,
        (stations.filter (fun t => nameMatches (pyLower (pyStrip q.data)) t)).get i = st
        ∧ (∀ j : Fin (stations.filter
              (fun t => nameMatches (pyLower (pyStrip q.data)) t)).length,
            nameLen st ≤ nameLen ((stations.filter
              (fun t => nameMatches (pyLower (pyStrip q.data)) t)).get j))
        ∧ ∀ j : Fin (stations.filter
              (fun t => nameMatches (pyLower (pyStrip q.data)) t)).length,
            (j : ℕ) < (i : ℕ) →
            nameLen st < nameLen ((stations.filter
              (fun t => nameMatches (pyLower (pyStrip q.data)) t)).get j) := by
  constructor
  · intro s
    rw [List.mem_filter]
    constructor
    · rintro ⟨h1, h2⟩
      rw [nameMatches, Bool.and_eq_true, Bool.not_eq_true'] at h2
      exact ⟨h1, h2.1, (containsSub_iff _ _).mp h2.2⟩
    · rintro ⟨h1, h2, h3⟩
      refine ⟨h1, ?_⟩
      rw [nameMatches, Bool.and_eq_true, Bool.not_eq_true']
      exact ⟨h2, (containsSub_iff _ _).mpr h3⟩
  · simp only [get_station_by_name, find_stations_by_name] at h
    rcases hsort : stableSort (fun a b => nameLen a < nameLen b)
        (stations.filter (fun t => nameMatches (pyLower (pyStrip q.data)) t))
      with _ | ⟨m, rest⟩
    · rw [hsort] at h
      simp at h
    · rw [hsort] at h
      simp only [List.take_succ_cons, List.take_zero, List.head?_cons,
        Option.some.injEq] at h
      obtain rfl := h
      obtain ⟨i, hi, hmin, hbef⟩ := stableSort_head_min
        (fun a b => nameLen a < nameLen b)
        (fun a b c h1 h2 => by omega)
        (fun a b hab => by omega)
        _ m rest hsort
      exact ⟨i, hi, fun j => not_lt.mp (hmin j), fun j hj => hbef j hj⟩

/-- Concrete stations for the C6 witness: one long match and two tied
shortest matches, the tie resolved by catalog order. -/
noncomputable def wGoldA : StationRecord :=
  ⟨"BikePoints_10", some "Golden Lane East", 51.0, -0.1, 10, 5, 5⟩

noncomputable def wGoldB : StationRecord :=
  ⟨"BikePoints_11", some "Gold Lane", 51.1, -0.2, 12, 6, 6⟩

noncomputable def wGoldC : StationRecord :=
  ⟨"BikePoints_12", some "Gold Park", 51.2, -0.3, 8, 4, 4⟩

noncomputable def wGoldCat : List StationRecord := [wGoldA, wGoldB, wGoldC]

/-- Witness for C6: querying "Gold" against the three-station catalog picks
`wGoldB` — a shortest match ("Gold Lane", 9 characters, shorter than
"Golden Lane East") that precedes the equal-length "Gold Park". -/
theorem C6_witness :
    ∃ i : Fin (wGoldCat.filter
        (fun t => nameMatches (pyLower (pyStrip "Gold".data)) t)).length,
      (wGoldCat.filter (fun t => nameMatches (pyLower (pyStrip "Gold".data)) t)).get i
          = wGoldB
      ∧ (∀ j : Fin (wGoldCat.filter
            (fun t => nameMatches (pyLower (pyStrip "Gold".data)) t)).length,
          nameLen wGoldB ≤ nameLen ((wGoldCat.filter
            (fun t => nameMatches (pyLower (pyStrip "Gold".data)) t)).get j))
      ∧ ∀ j : Fin (wGoldCat.filter
            (fun t => nameMatches (pyLower (pyStrip "Gold".data)) t)).length,
          (j : ℕ) < (i : ℕ) →
          nameLen wGoldB < nameLen ((wGoldCat.filter
            (fun t => nameMatches (pyLower (pyStrip "Gold".data)) t)).get j) :=
  (C6_name_resolution wGoldCat "Gold" wGoldB rfl).2

/-- C2 (amended): ranking sorts the result entries by their `score` field
descending — which is the 4-decimal ROUNDED score, so the internal sort
comparisons are on the rounded display value, not the full-precision
score — and the sort is stable: entries whose rounded scores are equal
(including ties created by the rounding itself) keep the order in which the
candidate filter produced them.  The rounded 1-decimal distance plays no
role in the ordering. -/
theorem C2_ranking_sorted_stable_on_rounded (cfg : Settings)
    (stations : List StationRecord) (o_lat o_lon : ℝ) (o_name : Option String)
    (d_lat d_lon dds : ℝ) (limit : ℕ) :
    (recommendCore cfg stations o_lat o_lon o_name d_lat d_lon dds limit).results
      = (stableSort scoreDescLt
          (buildCandidates cfg stations o_lat o_lon d_lat d_lon dds)).take limit
    ∧ (stableSort scoreDescLt
        (buildCandidates cfg stations o_lat o_lon d_lat d_lon dds)).Perm
        (buildCandidates cfg stations o_lat o_lon d_lat d_lon dds)
    ∧ (recommendCore cfg stations o_lat o_lon o_name d_lat d_lon dds limit).results.Pairwise
        (fun a b => b.score ≤ a.score)
    ∧ (∀ v : ℝ, (stableSort scoreDescLt
          (buildCandidates cfg stations o_lat o_lon d_lat d_lon dds)).filter
          (fun c => decide (c.score = v))
        = (buildCandidates cfg stations o_lat o_lon d_lat d_lon dds).filter
          (fun c => decide (c.score = v)))
    ∧ (buildCandidates cfg stations o_lat o_lon d_lat d_lon dds).map (fun c => c.score)
        = (stations.filter (fun s =>
            decide (haversine_m o_lat o_lon s.lat s.lon ≤ (cfg.ORIGIN_SEARCH_RADIUS_M : ℝ)
              ∧ 0 < s.capacity))).map
            (fun s => roundTo 4 (score_station_candidate s o_lat o_lon d_lat d_lon dds)) := by
  have hneg : ∀ a b c : Candidate, ¬ scoreDescLt b a → ¬ scoreDescLt c b →
      ¬ scoreDescLt c a := by
    intro a b c h1 h2
    unfold scoreDescLt at h1 h2 ⊢
    intro h3
    rw [not_lt] at h1 h2
    linarith
  have hasymm : ∀ a b : Candidate, scoreDescLt a b → ¬ scoreDescLt b a := by
    intro a b h1 h2
    unfold scoreDescLt at h1 h2
    linarith
  refine ⟨rfl, stableSort_perm scoreDescLt _, ?_, ?_, ?_⟩
  · have hp := stableSort_pairwise scoreDescLt hneg hasymm
      (buildCandidates cfg stations o_lat o_lon d_lat d_lon dds)
    have hp2 : (stableSort scoreDescLt
        (buildCandidates cfg stations o_lat o_lon d_lat d_lon dds)).Pairwise
        (fun a b => b.score ≤ a.score) := by
      refine hp.imp ?_
      intro a b hab
      rw [show scoreDescLt b a = (a.score < b.score) from rfl, not_lt] at hab
      exact hab
    exact hp2.sublist (List.take_sublist _ _)
  · intro v
    exact stableSort_filter_tie scoreDescLt (fun c => c.score = v)
      (by
        intro a b ha hb
        unfold scoreDescLt
        rw [ha, hb]
        exact lt_irrefl v) _
  · unfold buildCandidates
    rw [List.map_map]
    rfl

theorem exp_neg_four_bounds :
    (0.0182 : ℝ) < Real.exp (-4) ∧ Real.exp (-4) < 0.0184 := by
  have he1 : (2.7182818283 : ℝ) < Real.exp 1 := Real.exp_one_gt_d9
  have he2 : Real.exp 1 < 2.7182818286 := Real.exp_one_lt_d9
  have h4 : Real.exp (4 : ℝ) = Real.exp 1 ^ (4 : ℕ) := by
    rw [← Real.exp_nat_mul]
    norm_num
  have hsq : (7.389 : ℝ) < Real.exp 1 ^ 2 ∧ Real.exp 1 ^ 2 < 7.3891 := by
    constructor <;> nlinarith
  have h4b : (54.5 : ℝ) < Real.exp 1 ^ (4 : ℕ) ∧ Real.exp 1 ^ (4 : ℕ) < 54.7 := by
    have hr : Real.exp 1 ^ (4 : ℕ) = (Real.exp 1 ^ 2) ^ 2 := by ring
    rw [hr]
    constructor <;> nlinarith [hsq.1, hsq.2]
  have hneg : Real.exp (-4 : ℝ) = (Real.exp (4 : ℝ))⁻¹ := Real.exp_neg 4
  have hpos : (0 : ℝ) < Real.exp 1 ^ (4 : ℕ) := by positivity
  have hinv : (Real.exp 1 ^ (4 : ℕ))⁻¹ * Real.exp 1 ^ (4 : ℕ) = 1 :=
    inv_mul_cancel₀ (ne_of_gt hpos)
  have hinvpos : (0 : ℝ) < (Real.exp 1 ^ (4 : ℕ))⁻¹ := inv_pos.mpr hpos
  rw [hneg, h4]
  constructor
  · nlinarith [h4b.2, hinv, hinvpos]
  · nlinarith [h4b.1, hinv, hinvpos]

theorem sigmoid_minutes_zero :
    sigmoid_minutes 0 = 1 / (1 + Real.exp (-4)) := by
  unfold sigmoid_minutes
  norm_num

/-- Two stations at the origin with capacity 100000 and bike counts 50000
and 50001: their full-precision scores differ by 0.35·0.00001 = 0.0000035,
which vanishes under the 4-decimal rounding of the displayed score. -/
noncomputable def cexA : StationRecord := ⟨"A", some "A", 0, 0, 100000, 50000, 50000⟩

noncomputable def cexB : StationRecord := ⟨"B", some "B", 0, 0, 100000, 50001, 49999⟩

theorem avail_cexA : availability_frac cexA.bikes_available cexA.capacity = 0.5 := by
  rw [show cexA.bikes_available = (50000 : ℤ) from rfl,
    show cexA.capacity = (100000 : ℤ) from rfl]
  unfold availability_frac
  rw [if_neg (by norm_num)]
  rw [show (((50000 : ℤ) : ℝ) / ((100000 : ℤ) : ℝ)) = 0.5 by norm_num]
  rw [min_eq_right (by norm_num), max_eq_right (by norm_num)]

theorem avail_cexB : availability_frac cexB.bikes_available cexB.capacity = 0.50001 := by
  rw [show cexB.bikes_available = (50001 : ℤ) from rfl,
    show cexB.capacity = (100000 : ℤ) from rfl]
  unfold availability_frac
  rw [if_neg (by norm_num)]
  rw [show (((50001 : ℤ) : ℝ) / ((100000 : ℤ) : ℝ)) = 0.50001 by norm_num]
  rw [min_eq_right (by norm_num), max_eq_right (by norm_num)]

theorem score_cexA : score_station_candidate cexA 0 0 0 0 0
    = 0.35 * (1 / (1 + Real.exp (-4))) + 0.175 := by
  simp only [score_station_candidate]
  rw [show cexA.lat = (0 : ℝ) from rfl, show cexA.lon = (0 : ℝ) from rfl,
    haversine_self, show ((0 : ℝ) / 80.0) = 0 by norm_num, sigmoid_minutes_zero,
    avail_cexA]
  ring

theorem score_cexB : score_station_candidate cexB 0 0 0 0 0
    = 0.35 * (1 / (1 + Real.exp (-4))) + 0.1750035 := by
  simp only [score_station_candidate]
  rw [show cexB.lat = (0 : ℝ) from rfl, show cexB.lon = (0 : ℝ) from rfl,
    haversine_self, show ((0 : ℝ) / 80.0) = 0 by norm_num, sigmoid_minutes_zero,
    avail_cexB]
  ring

/-- Interval bounds for the shared proximity term of the two stations. -/
theorem proximity_term_bounds :
    (0.98193 : ℝ) < 1 / (1 + Real.exp (-4)) ∧ 1 / (1 + Real.exp (-4)) < 0.98213 := by
  obtain ⟨hl, hu⟩ := exp_neg_four_bounds
  have hpos : (0 : ℝ) < 1 + Real.exp (-4) := by positivity
  have hP : (1 / (1 + Real.exp (-4))) * (1 + Real.exp (-4)) = 1 := by
    field_simp
  have hPpos : (0 : ℝ) < 1 / (1 + Real.exp (-4)) := by positivity
  constructor
  · nlinarith [hP, hPpos, hu]
  · nlinarith [hP, hPpos, hl]

theorem roundTo4_eq_of_bounds (x : ℝ) (h1 : (5186.5 : ℝ) ≤ x * 10 ^ 4)
    (h2 : x * 10 ^ 4 < 5187.5) : roundTo 4 x = 5187 / 10000 := by
  unfold roundTo
  have hr : round (x * 10 ^ (4 : ℕ)) = 5187 := by
    rw [round_eq, Int.floor_eq_iff]
    constructor
    · push_cast
      linarith
    · push_cast
      linarith
  rw [hr]
  norm_num

theorem roundTo4_score_cexA :
    roundTo 4 (score_station_candidate cexA 0 0 0 0 0) = 5187 / 10000 := by
  obtain ⟨hl, hu⟩ := proximity_term_bounds
  apply roundTo4_eq_of_bounds
  · rw [score_cexA]
    nlinarith
  · rw [score_cexA]
    nlinarith

theorem roundTo4_score_cexB :
    roundTo 4 (score_station_candidate cexB 0 0 0 0 0) = 5187 / 10000 := by
  obtain ⟨hl, hu⟩ := proximity_term_bounds
  apply roundTo4_eq_of_bounds
  · rw [score_cexB]
    nlinarith
  · rw [score_cexB]
    nlinarith

theorem buildCandidates_cex :
    buildCandidates defaultSettings [cexA, cexB] 0 0 0 0 0
      = [candidateOf 0 0 0 0 0 cexA, candidateOf 0 0 0 0 0 cexB] := by
  unfold buildCandidates
  have hA : haversine_m 0 0 cexA.lat cexA.lon = 0 := by
    rw [show cexA.lat = (0 : ℝ) from rfl, show cexA.lon = (0 : ℝ) from rfl,
      haversine_self]
  have hB : haversine_m 0 0 cexB.lat cexB.lon = 0 := by
    rw [show cexB.lat = (0 : ℝ) from rfl, show cexB.lon = (0 : ℝ) from rfl,
      haversine_self]
  have hcA : (decide (haversine_m 0 0 cexA.lat cexA.lon
      ≤ (defaultSettings.ORIGIN_SEARCH_RADIUS_M : ℝ) ∧ 0 < cexA.capacity)) = true := by
    rw [decide_eq_true_eq]
    refine ⟨?_, ?_⟩
    · rw [hA, show ((defaultSettings.ORIGIN_SEARCH_RADIUS_M : ℤ) : ℝ) = 800 by
        norm_num [defaultSettings]]
      norm_num
    · rw [show cexA.capacity = (100000 : ℤ) from rfl]
      norm_num
  have hcB : (decide (haversine_m 0 0 cexB.lat cexB.lon
      ≤ (defaultSettings.ORIGIN_SEARCH_RADIUS_M : ℝ) ∧ 0 < cexB.capacity)) = true := by
    rw [decide_eq_true_eq]
    refine ⟨?_, ?_⟩
    · rw [hB, show ((defaultSettings.ORIGIN_SEARCH_RADIUS_M : ℤ) : ℝ) = 800 by
        norm_num [defaultSettings]]
      norm_num
    · rw [show cexB.capacity = (100000 : ℤ) from rfl]
      norm_num
  simp only [List.filter_cons, List.filter_nil, hcA, hcB, if_true]
  rfl

theorem sort_cex :
    stableSort scoreDescLt [candidateOf 0 0 0 0 0 cexA, candidateOf 0 0 0 0 0 cexB]
      = [candidateOf 0 0 0 0 0 cexA, candidateOf 0 0 0 0 0 cexB] := by
  have hs : ¬ scoreDescLt (candidateOf 0 0 0 0 0 cexB) (candidateOf 0 0 0 0 0 cexA) := by
    show ¬ ((candidateOf 0 0 0 0 0 cexA).score < (candidateOf 0 0 0 0 0 cexB).score)
    rw [show (candidateOf 0 0 0 0 0 cexA).score
        = roundTo 4 (score_station_candidate cexA 0 0 0 0 0) from rfl,
      show (candidateOf 0 0 0 0 0 cexB).score
        = roundTo 4 (score_station_candidate cexB 0 0 0 0 0) from rfl,
      roundTo4_score_cexA, roundTo4_score_cexB]
    exact lt_irrefl _
  show stInsert scoreDescLt (candidateOf 0 0 0 0 0 cexA)
      (stInsert scoreDescLt (candidateOf 0 0 0 0 0 cexB)
        (stableSort scoreDescLt [])) = _
  rw [show stableSort scoreDescLt ([] : List Candidate) = [] from rfl,
    show stInsert scoreDescLt (candidateOf 0 0 0 0 0 cexB) []
      = [candidateOf 0 0 0 0 0 cexB] from rfl,
    show stInsert scoreDescLt (candidateOf 0 0 0 0 0 cexA) [candidateOf 0 0 0 0 0 cexB]
      = if scoreDescLt (candidateOf 0 0 0 0 0 cexB) (candidateOf 0 0 0 0 0 cexA)
        then candidateOf 0 0 0 0 0 cexB :: stInsert scoreDescLt (candidateOf 0 0 0 0 0 cexA) []
        else [candidateOf 0 0 0 0 0 cexA, candidateOf 0 0 0 0 0 cexB] from rfl,
    if_neg hs]

/-- Counterexample to C2 as stated: two stations at the origin whose
full-precision scores differ strictly (bikes 50000 vs 50001 of capacity
100000) but agree after the 4-decimal rounding.  The candidate filter
produces the lower-scored station "A" first; a descending sort on the
full-precision score would return "B" first, but the code sorts on the
rounded score stored in the result entry, finds a tie, and keeps the filter
order, returning "A" before "B". -/
theorem C2_counterexample :
    (recommendCore defaultSettings [cexA, cexB] 0 0 none 0 0 0 3).results.map
        (fun c => c.station_id) = ["A", "B"]
    ∧ score_station_candidate cexA 0 0 0 0 0 < score_station_candidate cexB 0 0 0 0 0
    ∧ roundTo 4 (score_station_candidate cexA 0 0 0 0 0)
        = roundTo 4 (score_station_candidate cexB 0 0 0 0 0) := by
  refine ⟨?_, ?_, ?_⟩
  · have hres : (recommendCore defaultSettings [cexA, cexB] 0 0 none 0 0 0 3).results
        = (stableSort scoreDescLt
            (buildCandidates defaultSettings [cexA, cexB] 0 0 0 0 0)).take 3 := rfl
    rw [hres, buildCandidates_cex, sort_cex]
    rfl
  · rw [score_cexA, score_cexB]
    linarith
  · rw [roundTo4_score_cexA, roundTo4_score_cexB]
